import Mathlib

/-!
# Verification of the embody-file stream decoder (`src/embodyfile/parser.py`)

This file gives a shallow embedding of the parser module's core logic and
proves the spec's claims about it.

Modelling conventions:
* The message codec is an external collaborator (spec section 6): the input is
  therefore modelled at the decode-event level as a list of `StreamItem`s, each
  being either one successfully decoded message together with its body length
  (the codec's `msg.length(version)`), or an unrecognized-tag event
  (the codec's `LookupError`).  The chunked byte buffering of
  `_read_data_in_memory` only affects how bytes reach the codec, not the
  per-message state machine, and is abstracted away; the absolute byte
  position `pos` is kept (a decoded message advances it by `1 + msg_len`,
  an unknown tag by exactly 1, as in the source).
* Python ints are `Int`; Python floats that hold exact decimal values
  (`relative_gain`, `off_dac`, `samplerate`, `stamp_tol`, `stamp_gap_limit`)
  are `ℚ`, with Python's `int()` truncation toward zero as `ratTrunc`.
* `current_timestamp & 0xFFFF` is `Int.emod _ 65536` and
  `current_timestamp >> 16 << 16 | t` is `65536 * (Int.fdiv _ 65536) + t`:
  Python's `&`, arithmetic shifts and `|` on arbitrary ints agree with the
  floored operations (the low 16 bits are zero before the `|`).
* Message kinds not touched by any claim (Temperature, HeartRate, ImuRaw,
  AccRaw, GyroRaw, BatteryDiagnostics, the legacy AfeSettingsOld/All
  encodings) are time-ticked scalar records as far as the decode loop is
  concerned and are collapsed into the single constructor `Msg.otherTicked`.
  Fields of the remaining messages that the parser only reads for logging
  (`led1`..`led4`, `prev_msg`, counters that feed log lines only) are omitted.
-/

/-- The value `datetime(1999, 10, 1).timestamp() * 1000` (UTC evaluation), the minimum
sane epoch floor `MIN_TIMESTAMP` of the parser module. -/
def MIN_TIMESTAMP : Int := 938736000000

/-- The value `datetime(2036, 10, 1).timestamp() * 1000` (UTC evaluation), the
future-sanity ceiling `MAX_TIMESTAMP` of the parser module. -/
def MAX_TIMESTAMP : Int := 2106432000000

/-- Python `int()` truncation (toward zero) of a rational. -/
def ratTrunc (q : ℚ) : Int := q.num.tdiv (q.den : Int)

/-- Header message: serial, 3-component firmware version, full ms timestamp. -/
structure HeaderMsg where
  serial : Int
  firmware_version : Nat × Nat × Nat
  current_time : Int
  deriving Repr, DecidableEq

/-- Message `file_codec.PpgRaw`: one ECG and one PPG sample plus optional 16-bit tick. -/
structure PpgRawMsg where
  two_lsb_of_timestamp : Option Nat
  ecg : Int
  ppg : Int
  deriving Repr, DecidableEq

/-- Message `file_codec.PpgRawAll`: ECG plus three PPG channels plus optional tick. -/
structure PpgRawAllMsg where
  two_lsb_of_timestamp : Option Nat
  ecg : Int
  ppg : Int
  ppg_red : Int
  ppg_ir : Int
  deriving Repr, DecidableEq

/-- Message `file_codec.PulseRawList`: multi-channel ECG/PPG sample record. -/
structure PulseRawListMsg where
  two_lsb_of_timestamp : Option Nat
  format : Nat
  no_of_ecgs : Nat
  no_of_ppgs : Nat
  ecgs : List Int
  ppgs : List Int
  deriving Repr, DecidableEq

/-- Message `file_codec.AfeSettings`: the fields the parser uses for the DC-offset
correction constant (logging-only fields omitted). -/
structure AfeSettingsMsg where
  two_lsb_of_timestamp : Option Nat
  off_dac : ℚ
  relative_gain : ℚ
  deriving Repr, DecidableEq

/-- Messages `file_codec.PulseBlockEcg` / `file_codec.PulseBlockPpg`: a channel index,
a block-start absolute timestamp and an ordered list of raw samples. -/
structure BlockMsg where
  channel : Nat
  time : Int
  samples : List Int
  deriving Repr, DecidableEq

/-- The closed set of decoded message variants the decode loop dispatches on. -/
inductive Msg where
  | header (h : HeaderMsg)
  | timestamp (current_time : Int)
  | pulseBlockEcg (b : BlockMsg)
  | pulseBlockPpg (b : BlockMsg)
  | ppgRaw (p : PpgRawMsg)
  | ppgRawAll (p : PpgRawAllMsg)
  | pulseRawList (p : PulseRawListMsg)
  | afeSettings (a : AfeSettingsMsg)
  | otherTicked (two_lsb_of_timestamp : Option Nat)
  deriving Repr, DecidableEq

/-- The optional 16-bit tick of a message (`two_lsb_of_timestamp` for
`TimetickedMessage` instances, absent otherwise). -/
def Msg.tick : Msg → Option Nat
  | .ppgRaw p => p.two_lsb_of_timestamp
  | .ppgRawAll p => p.two_lsb_of_timestamp
  | .pulseRawList p => p.two_lsb_of_timestamp
  | .afeSettings a => a.two_lsb_of_timestamp
  | .otherTicked t => t
  | _ => none

/-- Python `msg.two_lsb_of_timestamp if isinstance(msg, TimetickedMessage) and
msg.two_lsb_of_timestamp else 0`: a missing or zero tick contributes 0. -/
def tickValue (m : Msg) : Nat := (Msg.tick m).getD 0

/-- Whether a message goes through the tick-reconstruction path of the decode
loop (everything except Header, Timestamp and the two block kinds). -/
def Msg.isTicked : Msg → Bool
  | .header _ => false
  | .timestamp _ => false
  | .pulseBlockEcg _ => false
  | .pulseBlockPpg _ => false
  | _ => true

/-- One decode event produced by the codec at the current position: a decoded
message with its body length `msg.length(version)`, or an unknown message tag. -/
inductive StreamItem where
  | msg (m : Msg) (msg_len : Nat)
  | unknownTag (tag : Nat)
  deriving Repr, DecidableEq

/-- The per-message-type collections dictionary (`ProtocolMessageDict`),
modelled as one insertion-ordered list per message class. -/
structure Collections where
  headers : List (Int × HeaderMsg) := []
  timestamps : List (Int × Int) := []
  blockEcg : List (Int × BlockMsg) := []
  blockPpg : List (Int × BlockMsg) := []
  ppgRaw : List (Int × PpgRawMsg) := []
  ppgRawAll : List (Int × PpgRawAllMsg) := []
  pulseRawList : List (Int × PulseRawListMsg) := []
  afeSettings : List (Int × AfeSettingsMsg) := []
  otherTicked : List (Int × Option Nat) := []
  deriving Repr, DecidableEq

/-- Function `_add_msg_to_collections`: append `(current_timestamp, msg)` to the
collection of the message's class. -/
def addMsgToCollections (ts : Int) (m : Msg) (cols : Collections) : Collections :=
  match m with
  | .header h => { cols with headers := cols.headers ++ [(ts, h)] }
  | .timestamp t => { cols with timestamps := cols.timestamps ++ [(ts, t)] }
  | .pulseBlockEcg b => { cols with blockEcg := cols.blockEcg ++ [(ts, b)] }
  | .pulseBlockPpg b => { cols with blockPpg := cols.blockPpg ++ [(ts, b)] }
  | .ppgRaw p => { cols with ppgRaw := cols.ppgRaw ++ [(ts, p)] }
  | .ppgRawAll p => { cols with ppgRawAll := cols.ppgRawAll ++ [(ts, p)] }
  | .pulseRawList p => { cols with pulseRawList := cols.pulseRawList ++ [(ts, p)] }
  | .afeSettings a => { cols with afeSettings := cols.afeSettings ++ [(ts, a)] }
  | .otherTicked t => { cols with otherTicked := cols.otherTicked ++ [(ts, t)] }

/-- The mutable state of `_read_data_in_memory` (log-only fields omitted). -/
structure ParserState where
  current_off_dac : Int := 0
  start_timestamp : Int := 0
  last_full_timestamp : Int := 0
  current_timestamp : Int := 0
  prev_timestamp : Int := 0
  unknown_msgs : Nat := 0
  too_old_msgs : Nat := 0
  total_messages : Nat := 0
  lsb_wrap_counter : Int := 0
  max_ecg_channels : Nat := 0
  max_ppg_channels : Nat := 0
  pos : Nat := 0
  version : Option (Nat × Nat × Nat) := none
  header_found : Bool := false
  collections : Collections := {}
  deriving Repr, DecidableEq

/-- Python tuple comparison `a >= b` on 3-component firmware versions
(lexicographic). -/
def verGE (a b : Nat × Nat × Nat) : Bool :=
  decide (b.1 < a.1) ||
    (decide (a.1 = b.1) &&
      (decide (b.2.1 < a.2.1) ||
        (decide (a.2.1 = b.2.1) && decide (b.2.2 ≤ a.2.2))))

/-- Python `should_adjust_ppg = version and version >= (4, 0, 1)`. -/
def shouldAdjustPpg : Option (Nat × Nat × Nat) → Bool
  | some v => verGE v (4, 0, 1)
  | none => false

/-- The in-place message correction of the decode loop together with the
updated `current_off_dac`: PPG offset/inversion for PpgRaw and PpgRawAll
(gated on `should_adjust_ppg`), unconditional PPG negation for PulseRawList,
and recomputation of `current_off_dac` from an AfeSettings message. -/
def correctMsg (adjust : Bool) (off_dac : Int) : Msg → Msg × Int
  | .ppgRaw p =>
      (.ppgRaw (if adjust then { p with ppg := -(p.ppg + off_dac) } else p), off_dac)
  | .ppgRawAll p =>
      (.ppgRawAll
        (if adjust then
          { p with
            ppg := -(p.ppg + off_dac),
            ppg_red := -(p.ppg_red + off_dac),
            ppg_ir := -(p.ppg_ir + off_dac) }
        else p), off_dac)
  | .pulseRawList p =>
      (.pulseRawList
        (if p.ppgs ≠ [] then { p with ppgs := p.ppgs.map (fun x => -x) } else p),
       off_dac)
  | .afeSettings a =>
      (.afeSettings a, ratTrunc (-a.off_dac * a.relative_gain))
  | m => (m, off_dac)

/-- Reference wrap algorithm of spec section 4.3: with `low16` the low 16 bits
of `current`, a forward wrap adds `0x10000` when `low16 > 65000` and
`t < 100`, a backward wrap subtracts `0x10000` when `t > 65000` and
`low16 < 100`, then the low 16 bits are replaced by `t`. -/
def refWrap (current : Int) (t : Nat) : Int :=
  let low16 := current.emod 65536
  let c :=
    if low16 > 65000 ∧ (t : Int) < 100 then current + 65536
    else if (t : Int) > 65000 ∧ low16 < 100 then current - 65536
    else current
  65536 * c.fdiv 65536 + (t : Int)

/-- The wrap-counter adjustment accompanying `refWrap`. -/
def refWrapDelta (current : Int) (t : Nat) : Int :=
  let low16 := current.emod 65536
  if low16 > 65000 ∧ (t : Int) < 100 then 1
  else if (t : Int) > 65000 ∧ low16 < 100 then -1
  else 0

/-- The tick-reconstruction path of the decode loop (parser.py lines 252-332):
too-old check on the incoming `current_timestamp`, 16-bit tick application
with wrap correction, version-gated PPG correction, AFE update, jump
detection, then storage keyed by the reconstructed timestamp. -/
def processTicked (fail_on_errors : Bool) (s : ParserState) (m : Msg) (msg_len : Nat) :
    Except String ParserState :=
  if s.current_timestamp < MIN_TIMESTAMP ∧ fail_on_errors = true then
    .error "Timestamp is too old"
  else
    let too_old_msgs' :=
      if s.current_timestamp < MIN_TIMESTAMP then s.too_old_msgs + 1 else s.too_old_msgs
    let t : Nat := tickValue m
    let original_two_lsbs : Int := s.current_timestamp.emod 65536
    let wrapped : Int × Int :=
      if original_two_lsbs > 65000 ∧ (t : Int) < 100 then
        (s.current_timestamp + 65536, s.lsb_wrap_counter + 1)
      else if (t : Int) > 65000 ∧ original_two_lsbs < 100 then
        (s.current_timestamp - 65536, s.lsb_wrap_counter - 1)
      else (s.current_timestamp, s.lsb_wrap_counter)
    let new_ts : Int := 65536 * wrapped.1.fdiv 65536 + (t : Int)
    let corrected := correctMsg (shouldAdjustPpg s.version) s.current_off_dac m
    if s.prev_timestamp > 0 ∧ new_ts > s.prev_timestamp + 1000 ∧ fail_on_errors = true then
      .error "Jump greater than 1 sec"
    else
      .ok { s with
        too_old_msgs := too_old_msgs',
        current_timestamp := new_ts,
        prev_timestamp := new_ts,
        lsb_wrap_counter := wrapped.2,
        current_off_dac := corrected.2,
        pos := s.pos + 1 + msg_len,
        total_messages := s.total_messages + 1,
        collections := addMsgToCollections new_ts corrected.1 s.collections }

/-- The Header branch of the decode loop: adopt version context; adopt the
header's full timestamp (and reset the wrap counter) only when it does not
exceed `MAX_TIMESTAMP`; always store the header. -/
def processHeader (fail_on_errors : Bool) (s : ParserState) (h : HeaderMsg) (msg_len : Nat) :
    Except String ParserState :=
  if MAX_TIMESTAMP < h.current_time then
    if fail_on_errors = true then
      .error "Received full timestamp is greater than max"
    else
      .ok { s with
        version := some h.firmware_version,
        header_found := true,
        pos := s.pos + 1 + msg_len,
        collections := addMsgToCollections s.current_timestamp (.header h) s.collections }
  else
    .ok { s with
      version := some h.firmware_version,
      header_found := true,
      last_full_timestamp := h.current_time,
      current_timestamp := h.current_time,
      start_timestamp := h.current_time,
      lsb_wrap_counter := 0,
      pos := s.pos + 1 + msg_len,
      collections := addMsgToCollections h.current_time (.header h) s.collections }

/-- The Timestamp (sync) branch of the decode loop: reject (strict) or ignore
(non-strict) a sync time above `MAX_TIMESTAMP` or below the last full
timestamp; otherwise adopt it and reset the wrap counter; always store. -/
def processTimestampMessage (fail_on_errors : Bool) (s : ParserState) (t : Int) (msg_len : Nat) :
    Except String ParserState :=
  if MAX_TIMESTAMP < t then
    if fail_on_errors = true then
      .error "Received full timestamp is greater than max. Skipping"
    else
      .ok { s with
        pos := s.pos + 1 + msg_len,
        collections := addMsgToCollections s.current_timestamp (.timestamp t) s.collections }
  else if t < s.last_full_timestamp then
    if fail_on_errors = true then
      .error "Received full timestamp is less than last_full_timestamp"
    else
      .ok { s with
        pos := s.pos + 1 + msg_len,
        collections := addMsgToCollections s.current_timestamp (.timestamp t) s.collections }
  else
    .ok { s with
      last_full_timestamp := t,
      current_timestamp := t,
      lsb_wrap_counter := 0,
      pos := s.pos + 1 + msg_len,
      collections := addMsgToCollections t (.timestamp t) s.collections }

/-- One iteration of the decode loop of `_read_data_in_memory` for one decode
event: unknown-tag handling, Header dispatch, skip-before-header, Timestamp
dispatch, block storage keyed by the block's own time, and the ticked path. -/
def processItem (fail_on_errors : Bool) (s : ParserState) (item : StreamItem) :
    Except String ParserState :=
  match item with
  | .unknownTag _ =>
      if fail_on_errors = true then .error "Unknown message type"
      else .ok { s with unknown_msgs := s.unknown_msgs + 1, pos := s.pos + 1 }
  | .msg (.header h) msg_len => processHeader fail_on_errors s h msg_len
  | .msg m msg_len =>
      if s.header_found = false then
        .ok { s with pos := s.pos + 1 + msg_len }
      else
        match m with
        | .timestamp t => processTimestampMessage fail_on_errors s t msg_len
        | .pulseBlockEcg b =>
            .ok { s with
              pos := s.pos + 1 + msg_len,
              total_messages := s.total_messages + 1,
              max_ecg_channels := max s.max_ecg_channels b.channel,
              collections := addMsgToCollections b.time (.pulseBlockEcg b) s.collections }
        | .pulseBlockPpg b =>
            .ok { s with
              pos := s.pos + 1 + msg_len,
              total_messages := s.total_messages + 1,
              max_ppg_channels := max s.max_ppg_channels b.channel,
              collections := addMsgToCollections b.time (.pulseBlockPpg b) s.collections }
        | m => processTicked fail_on_errors s m msg_len

/-- The decode loop: process the stream's decode events in order, threading
the parser state, aborting on the first raised error. -/
def runParser (fail_on_errors : Bool) : List StreamItem → ParserState → Except String ParserState
  | [], s => .ok s
  | i :: l, s =>
      match processItem fail_on_errors s i with
      | .error e => .error e
      | .ok s' => runParser fail_on_errors l s'

/-- The `stamp_tol` default of `__convert_block_messages_to_pulse_list` (0.95). -/
def stamp_tol : ℚ := 19 / 20

/-- The `stamp_gap_limit` default of `__convert_block_messages_to_pulse_list` (5.0). -/
def stamp_gap_limit : ℚ := 5

/-- Per-channel lock/skew check run at the start of each block (parser.py
lines 396-415 for ECG, 441-460 for PPG): lock an unlocked channel to the
block's stated time; otherwise compare the predicted first-sample timestamp
with the block's stated time and re-lock (resetting the sample counter) only
when the block is late by more than `gap` (the early/late tallies feed log
lines only and are omitted). -/
def blockLockStep (interval tol gap : ℚ) (locked : Int) (counter : Nat) (blockTime : Int) :
    Int × Nat :=
  if locked = 0 then (blockTime, counter)
  else
    let first_samplestamp : ℚ := (locked : ℚ) + (counter : ℚ) * interval
    let stamp_diff := first_samplestamp - (blockTime : ℚ)
    if stamp_diff > tol then (locked, counter)
    else if stamp_diff < -tol then
      if stamp_diff < -gap then (blockTime, 0) else (locked, counter)
    else (locked, counter)

/-- The merged multi-channel dictionary `merged_data`, as an insertion-ordered
association list keyed by computed sample timestamp. -/
abbrev Merged := List (Int × PulseRawListMsg)

/-- Key lookup in `merged_data`. -/
def lookupMerged (m : Merged) (k : Int) : Option PulseRawListMsg :=
  (m.find? (fun p => p.1 = k)).map Prod.snd

/-- In-place value replacement at a key of `merged_data`. -/
def setMerged (m : Merged) (k : Int) (v : PulseRawListMsg) : Merged :=
  m.map (fun p => if p.1 = k then (k, v) else p)

/-- A fresh `PulseRawList(format=0, ...)` entry with zero-filled channel
arrays sized to the session-wide channel maxima. -/
def emptyPulseRawList (nEcg nPpg : Nat) : PulseRawListMsg :=
  { two_lsb_of_timestamp := none,
    format := 0,
    no_of_ecgs := nEcg,
    no_of_ppgs := nPpg,
    ecgs := List.replicate nEcg 0,
    ppgs := List.replicate nPpg 0 }

/-- One ECG sample of a block: compute its timestamp from the channel's locked
time and sample counter, create a zero-filled entry if the timestamp is new,
store the sample as-is in the channel's ECG slot, bump the counter. -/
def ecgSampleStep (interval : ℚ) (nEcg nPpg ch : Nat)
    (st : (List Int × List Nat) × Merged) (sample : Int) :
    (List Int × List Nat) × Merged :=
  let locked := st.1.1
  let counters := st.1.2
  let merged := st.2
  let samplestamp :=
    ratTrunc ((locked.getD ch 0 : ℚ) + (counters.getD ch 0 : ℚ) * interval)
  let merged :=
    match lookupMerged merged samplestamp with
    | none =>
        let r := emptyPulseRawList nEcg nPpg
        merged ++ [(samplestamp, { r with ecgs := r.ecgs.set ch sample })]
    | some r => setMerged merged samplestamp { r with ecgs := r.ecgs.set ch sample }
  ((locked, counters.set ch (counters.getD ch 0 + 1)), merged)

/-- One PPG sample of a block: as `ecgSampleStep` but the stored value is the
negated sample. -/
def ppgSampleStep (interval : ℚ) (nEcg nPpg ch : Nat)
    (st : (List Int × List Nat) × Merged) (sample : Int) :
    (List Int × List Nat) × Merged :=
  let locked := st.1.1
  let counters := st.1.2
  let merged := st.2
  let samplestamp :=
    ratTrunc ((locked.getD ch 0 : ℚ) + (counters.getD ch 0 : ℚ) * interval)
  let merged :=
    match lookupMerged merged samplestamp with
    | none =>
        let r := emptyPulseRawList nEcg nPpg
        merged ++ [(samplestamp, { r with ppgs := r.ppgs.set ch (-sample) })]
    | some r => setMerged merged samplestamp { r with ppgs := r.ppgs.set ch (-sample) }
  ((locked, counters.set ch (counters.getD ch 0 + 1)), merged)

/-- Process one ECG block: run the lock/skew check for its channel, then fold
its samples into `merged_data`. -/
def ecgBlockStep (interval : ℚ) (nEcg nPpg : Nat)
    (st : (List Int × List Nat) × Merged) (blk : BlockMsg) :
    (List Int × List Nat) × Merged :=
  let lc := blockLockStep interval stamp_tol stamp_gap_limit
    (st.1.1.getD blk.channel 0) (st.1.2.getD blk.channel 0) blk.time
  let locked := st.1.1.set blk.channel lc.1
  let counters := st.1.2.set blk.channel lc.2
  blk.samples.foldl (ecgSampleStep interval nEcg nPpg blk.channel) ((locked, counters), st.2)

/-- Process one PPG block: as `ecgBlockStep` with negated sample storage. -/
def ppgBlockStep (interval : ℚ) (nEcg nPpg : Nat)
    (st : (List Int × List Nat) × Merged) (blk : BlockMsg) :
    (List Int × List Nat) × Merged :=
  let lc := blockLockStep interval stamp_tol stamp_gap_limit
    (st.1.1.getD blk.channel 0) (st.1.2.getD blk.channel 0) blk.time
  let locked := st.1.1.set blk.channel lc.1
  let counters := st.1.2.set blk.channel lc.2
  blk.samples.foldl (ppgSampleStep interval nEcg nPpg blk.channel) ((locked, counters), st.2)

/-- The session-wide ECG channel count `max(ecg_block.channel + 1, acc)`
accumulated over all ECG blocks. -/
def maxChannels (l : List (Int × BlockMsg)) : Nat :=
  l.foldl (fun acc p => max (p.2.channel + 1) acc) 0

/-- Function `__convert_block_messages_to_pulse_list`: assert both block collections
are present (`collections.get` returns `None`, i.e. no entry, exactly when no
message of that class was stored), recompute the channel maxima (the passed-in
maxima are zeroed out by the function before use), fold all ECG blocks then
all PPG blocks into `merged_data`, store the merged entries as the
PulseRawList collection and clear both block collections. -/
def convertBlockMessages (cols : Collections) (samplerate : ℚ) : Except String Collections :=
  if cols.blockEcg = [] then .error "AssertionError: ecg_messages is None"
  else if cols.blockPpg = [] then .error "AssertionError: ppg_messages is None"
  else
    let sampleinterval_ms : ℚ := 1000 / samplerate
    let max_ecg_channels := maxChannels cols.blockEcg
    let max_ppg_channels := maxChannels cols.blockPpg
    let ecgSt := cols.blockEcg.foldl
      (fun st p => ecgBlockStep sampleinterval_ms max_ecg_channels max_ppg_channels st p.2)
      ((List.replicate max_ecg_channels 0, List.replicate max_ecg_channels 0), [])
    let ppgSt := cols.blockPpg.foldl
      (fun st p => ppgBlockStep sampleinterval_ms max_ecg_channels max_ppg_channels st p.2)
      ((List.replicate max_ppg_channels 0, List.replicate max_ppg_channels 0), ecgSt.2)
    .ok { cols with pulseRawList := ppgSt.2, blockEcg := [], blockPpg := [] }

/-- Function `_read_data_in_memory`: run the decode loop, then run block reassembly
when either block collection is present. -/
def readDataInMemory (fail_on_errors : Bool) (samplerate : ℚ) (items : List StreamItem) :
    Except String Collections :=
  match runParser fail_on_errors items {} with
  | .error e => .error e
  | .ok s =>
      if s.collections.blockEcg ≠ [] ∨ s.collections.blockPpg ≠ [] then
        convertBlockMessages s.collections samplerate
      else .ok s.collections

/-- The final result of `read_data` (device identity plus one ordered
sequence per data kind; the IMU/acc/gyro and scalar-telemetry kinds are
collapsed into `other_sensors`, matching the `otherTicked` abstraction). -/
structure Data where
  device_serial : Int
  device_firmware : Nat × Nat × Nat
  device_time : Int
  sensor : List (Int × PpgRawMsg)
  afe : List (Int × AfeSettingsMsg)
  multi_ecg_ppg : List (Int × PulseRawListMsg)
  block_ecg : List (Int × BlockMsg)
  block_ppg : List (Int × BlockMsg)
  other_sensors : List (Int × Option Nat)
  deriving Repr, DecidableEq

/-- Function `read_data`: parse into collections (including reassembly), fail with the
missing-header error when no Header was stored, otherwise build the final
`Data` from the first header and the collections (PpgRawAll records are
re-emitted as `PpgRaw(d.ecg, d.ppg)` and appended to the sensor sequence). -/
def read_data (fail_on_errors : Bool) (samplerate : ℚ) (items : List StreamItem) :
    Except String Data :=
  match readDataInMemory fail_on_errors samplerate items with
  | .error e => .error e
  | .ok cols =>
      match cols.headers with
      | [] => .error "Missing header in input file"
      | (_, h) :: _ =>
          .ok { device_serial := h.serial,
                device_firmware := h.firmware_version,
                device_time := h.current_time,
                sensor := cols.ppgRaw ++
                  cols.ppgRawAll.map (fun p => (p.1, PpgRawMsg.mk none p.2.ecg p.2.ppg)),
                afe := cols.afeSettings,
                multi_ecg_ppg := cols.pulseRawList,
                block_ecg := cols.blockEcg,
                block_ppg := cols.blockPpg,
                other_sensors := cols.otherTicked }

/-- Whether a message is a Header. -/
def Msg.isHeader : Msg → Bool
  | .header _ => true
  | _ => false

/-- Whether a decode event is an unknown-tag event. -/
def StreamItem.isUnknown : StreamItem → Bool
  | .unknownTag _ => true
  | _ => false

/-- Whether a decode event carries a Header message. -/
def StreamItem.carriesHeader : StreamItem → Bool
  | .msg (.header _) _ => true
  | _ => false

/-- Whether a decode event carries a PulseBlockPpg message. -/
def StreamItem.carriesBlockPpg : StreamItem → Bool
  | .msg (.pulseBlockPpg _) _ => true
  | _ => false

/-- Whether a decode event carries a PulseBlockEcg message. -/
def StreamItem.carriesBlockEcg : StreamItem → Bool
  | .msg (.pulseBlockEcg _) _ => true
  | _ => false

theorem processItem_ticked (fail : Bool) (s : ParserState) (m : Msg) (msg_len : Nat)
    (hm : m.isTicked = true) (hh : s.header_found = true) :
    processItem fail s (.msg m msg_len) = processTicked fail s m msg_len := by
  cases m <;> simp_all [processItem, Msg.isTicked]

theorem processTicked_eq (fail : Bool) (s : ParserState) (m : Msg) (msg_len : Nat) :
    processTicked fail s m msg_len =
      if s.current_timestamp < MIN_TIMESTAMP ∧ fail = true then
        .error "Timestamp is too old"
      else if s.prev_timestamp > 0 ∧
          refWrap s.current_timestamp (tickValue m) > s.prev_timestamp + 1000 ∧
          fail = true then
        .error "Jump greater than 1 sec"
      else
        .ok { s with
          too_old_msgs :=
            if s.current_timestamp < MIN_TIMESTAMP then s.too_old_msgs + 1 else s.too_old_msgs,
          current_timestamp := refWrap s.current_timestamp (tickValue m),
          prev_timestamp := refWrap s.current_timestamp (tickValue m),
          lsb_wrap_counter :=
            s.lsb_wrap_counter + refWrapDelta s.current_timestamp (tickValue m),
          current_off_dac := (correctMsg (shouldAdjustPpg s.version) s.current_off_dac m).2,
          pos := s.pos + 1 + msg_len,
          total_messages := s.total_messages + 1,
          collections := addMsgToCollections (refWrap s.current_timestamp (tickValue m))
            (correctMsg (shouldAdjustPpg s.version) s.current_off_dac m).1 s.collections } := by
  simp only [processTicked, refWrap, refWrapDelta]
  split_ifs <;> simp_all [ParserState.mk.injEq, Int.sub_eq_add_neg]

/-- Claim C1: for every tick-bearing message processed after a Header, the
reconstructed timestamp equals the reference wrap algorithm of spec section
4.3 (with `t = 0` for a missing or zero tick), the wrap counter is adjusted
accordingly, and the message is stored keyed by this reconstructed value. -/
theorem c1_tick_reconstruction (s s' : ParserState) (m : Msg) (msg_len : Nat)
    (hm : m.isTicked = true) (hh : s.header_found = true)
    (hok : processItem false s (.msg m msg_len) = .ok s') :
    s'.current_timestamp = refWrap s.current_timestamp (tickValue m) ∧
    s'.lsb_wrap_counter =
      s.lsb_wrap_counter + refWrapDelta s.current_timestamp (tickValue m) ∧
    ∃ m', s'.collections =
      addMsgToCollections (refWrap s.current_timestamp (tickValue m)) m' s.collections := by
  rw [processItem_ticked false s m msg_len hm hh, processTicked_eq] at hok
  simp only [and_false, if_false, Bool.false_eq_true, ite_false, Except.ok.injEq] at hok
  subst hok
  exact ⟨rfl, rfl, (correctMsg (shouldAdjustPpg s.version) s.current_off_dac m).1, rfl⟩

/-- State of a decode pass that has seen a Header with firmware (5,0,0) and
current time 1700000000000. -/
def c1State : ParserState :=
  { header_found := true, version := some (5, 0, 0), current_timestamp := 1700000000000 }

/-- The state after `c1State` processes an otherTicked message with tick 123. -/
def c1After : ParserState :=
  { c1State with
    current_timestamp := refWrap c1State.current_timestamp 123,
    prev_timestamp := refWrap c1State.current_timestamp 123,
    lsb_wrap_counter := c1State.lsb_wrap_counter + refWrapDelta c1State.current_timestamp 123,
    pos := 4,
    total_messages := 1,
    collections := addMsgToCollections (refWrap c1State.current_timestamp 123)
      (.otherTicked (some 123)) c1State.collections }

theorem c1_tick_reconstruction_witness :
    c1After.current_timestamp = refWrap c1State.current_timestamp 123 ∧
    c1After.lsb_wrap_counter =
      c1State.lsb_wrap_counter + refWrapDelta c1State.current_timestamp 123 :=
  have h := c1_tick_reconstruction c1State c1After (.otherTicked (some 123)) 3
    rfl rfl (by rfl)
  ⟨h.1, h.2.1⟩

/-- Claim C9: every well-formed non-Header message decoded before the first
Header advances the position by its wire length and changes nothing else
(in particular, nothing is stored in any collection). -/
theorem c9_skip_before_header (fail_on_errors : Bool) (s : ParserState) (m : Msg)
    (msg_len : Nat) (hm : m.isHeader = false) (hh : s.header_found = false) :
    processItem fail_on_errors s (.msg m msg_len) =
      .ok { s with pos := s.pos + 1 + msg_len } := by
  cases m <;> simp_all [processItem, Msg.isHeader]

theorem c9_skip_before_header_witness :
    processItem true ({} : ParserState) (.msg (.otherTicked (some 5)) 7) =
      .ok { ({} : ParserState) with pos := 8 } :=
  c9_skip_before_header true {} (.otherTicked (some 5)) 7 rfl rfl

/-- State of a decode pass that has seen a Header with firmware (3,0,0),
below the correction threshold (4,0,1). -/
def c7State : ParserState :=
  { header_found := true, version := some (3, 0, 0), current_timestamp := 1700000000000 }

/-- A natively decoded PulseRawList message with one PPG slot holding 5. -/
def c7Item : StreamItem := .msg (.pulseRawList ⟨none, 0, 0, 1, [], [5]⟩) 9

/-- Claim C7 counterexample: with firmware (3,0,0), strictly below the
correction threshold (4,0,1), the decode loop still negates the PPG slots of
a natively decoded PulseRawList message (stored value -5 instead of the
claimed pass-through 5): the PulseRawList inversion is not version-gated. -/
theorem c7_counterexample :
    verGE (3, 0, 0) (4, 0, 1) = false ∧
    (processItem false c7State c7Item).toOption.map
      (fun s => s.collections.pulseRawList.map (fun p => p.2.ppgs)) = some [[-5]] :=
  ⟨rfl, rfl⟩

/-- Claim C7 as amended: for every natively decoded PulseRawList message the
PPG slots are negated (with no offset applied) regardless of the firmware
version; no version below the threshold passes PPG slots through unmodified. -/
theorem c7_prl_negated_unconditionally (s s' : ParserState) (p : PulseRawListMsg)
    (msg_len : Nat) (hh : s.header_found = true)
    (hok : processItem false s (.msg (.pulseRawList p) msg_len) = .ok s') :
    s'.collections.pulseRawList = s.collections.pulseRawList ++
      [(refWrap s.current_timestamp (tickValue (.pulseRawList p)),
        { p with ppgs := p.ppgs.map (fun x => -x) })] := by
  rw [processItem_ticked false s (.pulseRawList p) msg_len rfl hh, processTicked_eq] at hok
  simp only [and_false, if_false, Bool.false_eq_true, ite_false, Except.ok.injEq] at hok
  subst hok
  obtain ⟨tk, fmt, ne, np, ecgs, ppgs⟩ := p
  cases ppgs <;> simp [correctMsg, addMsgToCollections]

/-- The state after `c7State` processes the PulseRawList of `c7Item`. -/
def c7After : ParserState :=
  { c7State with
    current_timestamp := refWrap c7State.current_timestamp 0,
    prev_timestamp := refWrap c7State.current_timestamp 0,
    pos := 10,
    total_messages := 1,
    collections := addMsgToCollections (refWrap c7State.current_timestamp 0)
      (.pulseRawList ⟨none, 0, 0, 1, [], [-5]⟩) c7State.collections }

theorem c7_prl_negated_unconditionally_witness :
    c7After.collections.pulseRawList = c7State.collections.pulseRawList ++
      [(refWrap c7State.current_timestamp 0,
        (⟨none, 0, 0, 1, [], [-5]⟩ : PulseRawListMsg))] :=
  c7_prl_negated_unconditionally c7State c7After ⟨none, 0, 0, 1, [], [5]⟩ 9 rfl (by rfl)

/-- State of a decode pass whose running timestamp sits one millisecond below
the minimum sane epoch floor. -/
def c8State : ParserState :=
  { header_found := true, version := some (5, 0, 0),
    current_timestamp := MIN_TIMESTAMP - 1 }

/-- A tick-bearing message whose tick lifts the reconstructed timestamp back
above the epoch floor. -/
def c8Item : StreamItem := .msg (.otherTicked (some 65000)) 3

/-- Claim C8 counterexample: the reconstructed timestamp for this message is
at or above the minimum sane epoch floor, yet strict mode raises "too old" —
because the code evaluates the condition on `current_timestamp` before the
tick-reconstruction steps, not after them as the claim states. -/
theorem c8_counterexample :
    c8State.current_timestamp < MIN_TIMESTAMP ∧
    MIN_TIMESTAMP ≤ refWrap c8State.current_timestamp 65000 ∧
    processItem true c8State c8Item = .error "Timestamp is too old" :=
  ⟨by decide, by decide, by rfl⟩

/-- Claim C8 as amended: for every tick-bearing message the "too old"
condition is evaluated on `current_timestamp` before the tick-reconstruction
steps are applied: strict mode raises exactly when the pre-reconstruction
timestamp is below the minimum sane epoch floor, non-strict mode counts the
anomaly under the same condition, and the message is still stored (keyed by
the reconstructed timestamp). -/
theorem c8_too_old_pre_reconstruction (s : ParserState) (m : Msg) (msg_len : Nat)
    (hm : m.isTicked = true) (hh : s.header_found = true) :
    (s.current_timestamp < MIN_TIMESTAMP →
      processItem true s (.msg m msg_len) = .error "Timestamp is too old") ∧
    (∀ s', processItem false s (.msg m msg_len) = .ok s' →
      (s.current_timestamp < MIN_TIMESTAMP → s'.too_old_msgs = s.too_old_msgs + 1) ∧
      (MIN_TIMESTAMP ≤ s.current_timestamp → s'.too_old_msgs = s.too_old_msgs) ∧
      ∃ m', s'.collections =
        addMsgToCollections (refWrap s.current_timestamp (tickValue m)) m' s.collections) := by
  constructor
  · intro hold
    rw [processItem_ticked true s m msg_len hm hh, processTicked_eq]
    simp [hold]
  · intro s' hok
    rw [processItem_ticked false s m msg_len hm hh, processTicked_eq] at hok
    simp only [and_false, if_false, Bool.false_eq_true, ite_false, Except.ok.injEq] at hok
    subst hok
    refine ⟨fun hold => by simp [hold], fun hge => by simp [Int.not_lt.mpr hge], ?_⟩
    exact ⟨(correctMsg (shouldAdjustPpg s.version) s.current_off_dac m).1, rfl⟩

theorem c8_too_old_pre_reconstruction_witness :
    processItem true c8State (.msg (.otherTicked (some 65000)) 3) =
      .error "Timestamp is too old" :=
  (c8_too_old_pre_reconstruction c8State (.otherTicked (some 65000)) 3 rfl rfl).1
    (by decide)

/-- Claim C6: in drift-corrected block reassembly, for a channel with an
already-locked initial timestamp, a block whose declared start time is later
than the predicted first-sample timestamp by more than the gap limit re-locks
the channel to the block's declared time and resets its sample counter, while
a block later by no more than the gap limit, or earlier than predicted,
leaves both unchanged. -/
theorem c6_drift_relock (interval : ℚ) (locked : Int) (counter : Nat) (t : Int)
    (hlock : locked ≠ 0) :
    (((locked : ℚ) + (counter : ℚ) * interval + stamp_gap_limit < (t : ℚ)) →
      blockLockStep interval stamp_tol stamp_gap_limit locked counter t = (t, 0)) ∧
    (((t : ℚ) ≤ (locked : ℚ) + (counter : ℚ) * interval + stamp_gap_limit) →
      blockLockStep interval stamp_tol stamp_gap_limit locked counter t =
        (locked, counter)) := by
  unfold blockLockStep stamp_tol stamp_gap_limit
  rw [if_neg hlock]
  simp only []
  constructor
  · intro hgt
    simp only [gt_iff_lt]
    split_ifs with h1 h2 h3 <;> first | rfl | (exfalso; linarith)
  · intro hle
    simp only [gt_iff_lt]
    split_ifs with h1 h2 h3 <;> first | rfl | (exfalso; linarith)

theorem c6_drift_relock_witness :
    ((100 : ℚ) + (0 : ℚ) * 1 + stamp_gap_limit < (200 : ℚ) ∧
      blockLockStep 1 stamp_tol stamp_gap_limit 100 0 200 = (200, 0)) ∧
    ((104 : ℚ) ≤ (100 : ℚ) + (0 : ℚ) * 1 + stamp_gap_limit ∧
      blockLockStep 1 stamp_tol stamp_gap_limit 100 0 104 = (100, 0)) :=
  ⟨⟨by norm_num [stamp_gap_limit],
    (c6_drift_relock 1 100 0 200 (by decide)).1 (by norm_num [stamp_gap_limit])⟩,
   ⟨by norm_num [stamp_gap_limit],
    (c6_drift_relock 1 100 0 104 (by decide)).2 (by norm_num [stamp_gap_limit])⟩⟩

/-- The literal end-to-end scenario of the spec: Header (serial 1, firmware
(5,0,0), time 1700000000000), one AfeSettings(off_dac=10, relative_gain=2.0),
one PpgRaw(ppg=5). -/
def c4Items : List StreamItem :=
  [ .msg (.header ⟨1, (5, 0, 0), 1700000000000⟩) 21,
    .msg (.afeSettings ⟨none, 10, 2⟩) 12,
    .msg (.ppgRaw ⟨none, 0, 5⟩) 8 ]

/-- Claim C4: with firmware below (4,0,1) PPG values are stored unmodified;
at or above the threshold they are stored as `-(ppg + off_dac)` (for all
three channels of PpgRawAll), where `off_dac` is
`int(-settings.off_dac * settings.relative_gain)` recomputed from the most
recent AfeSettings message and 0 initially; in particular the literal
Header/AfeSettings(10, 2.0)/PpgRaw(5) scenario stores ppg value 15. -/
theorem c4_afe_version_gate :
    ({} : ParserState).current_off_dac = 0 ∧
    (∀ (s s' : ParserState) (p : PpgRawMsg) (msg_len : Nat) (v : Nat × Nat × Nat),
      s.header_found = true → s.version = some v →
      processItem false s (.msg (.ppgRaw p) msg_len) = .ok s' →
      (verGE v (4, 0, 1) = false →
        s'.collections.ppgRaw = s.collections.ppgRaw ++
          [(refWrap s.current_timestamp (tickValue (.ppgRaw p)), p)]) ∧
      (verGE v (4, 0, 1) = true →
        s'.collections.ppgRaw = s.collections.ppgRaw ++
          [(refWrap s.current_timestamp (tickValue (.ppgRaw p)),
            { p with ppg := -(p.ppg + s.current_off_dac) })])) ∧
    (∀ (s s' : ParserState) (p : PpgRawAllMsg) (msg_len : Nat) (v : Nat × Nat × Nat),
      s.header_found = true → s.version = some v →
      processItem false s (.msg (.ppgRawAll p) msg_len) = .ok s' →
      (verGE v (4, 0, 1) = false →
        s'.collections.ppgRawAll = s.collections.ppgRawAll ++
          [(refWrap s.current_timestamp (tickValue (.ppgRawAll p)), p)]) ∧
      (verGE v (4, 0, 1) = true →
        s'.collections.ppgRawAll = s.collections.ppgRawAll ++
          [(refWrap s.current_timestamp (tickValue (.ppgRawAll p)),
            { p with
              ppg := -(p.ppg + s.current_off_dac),
              ppg_red := -(p.ppg_red + s.current_off_dac),
              ppg_ir := -(p.ppg_ir + s.current_off_dac) })])) ∧
    (∀ (s s' : ParserState) (a : AfeSettingsMsg) (msg_len : Nat),
      s.header_found = true →
      processItem false s (.msg (.afeSettings a) msg_len) = .ok s' →
      s'.current_off_dac = ratTrunc (-a.off_dac * a.relative_gain)) ∧
    (read_data false 1000 c4Items).toOption.map
      (fun d => d.sensor.map (fun q => q.2.ppg)) = some [15] := by
  have hval : -(5 + ratTrunc (-(10 : ℚ) * 2)) = 15 := by
    have h20 : (-(10 : ℚ) * 2) = ((-20 : Int) : ℚ) := by norm_num
    rw [h20, ratTrunc]
    simp
  refine ⟨rfl, ?_, ?_, ?_, by rw [show (15 : Int) = -(5 + ratTrunc (-(10 : ℚ) * 2)) from hval.symm]; rfl⟩
  · intro s s' p msg_len v hh hv hok
    rw [processItem_ticked false s (.ppgRaw p) msg_len rfl hh, processTicked_eq] at hok
    simp only [and_false, if_false, Bool.false_eq_true, ite_false, Except.ok.injEq] at hok
    subst hok
    constructor <;> intro hgate <;>
      simp [correctMsg, addMsgToCollections, shouldAdjustPpg, hv, hgate]
  · intro s s' p msg_len v hh hv hok
    rw [processItem_ticked false s (.ppgRawAll p) msg_len rfl hh, processTicked_eq] at hok
    simp only [and_false, if_false, Bool.false_eq_true, ite_false, Except.ok.injEq] at hok
    subst hok
    constructor <;> intro hgate <;>
      simp [correctMsg, addMsgToCollections, shouldAdjustPpg, hv, hgate]
  · intro s s' a msg_len hh hok
    rw [processItem_ticked false s (.afeSettings a) msg_len rfl hh, processTicked_eq] at hok
    simp only [and_false, if_false, Bool.false_eq_true, ite_false, Except.ok.injEq] at hok
    subst hok
    simp [correctMsg]

/-- State `c1State` with an AFE offset correction of -20 already in effect. -/
def c4State : ParserState := { c1State with current_off_dac := -20 }

/-- The state after `c4State` processes `PpgRaw(ecg=0, ppg=5)`. -/
def c4After : ParserState :=
  { c4State with
    current_timestamp := refWrap c4State.current_timestamp 0,
    prev_timestamp := refWrap c4State.current_timestamp 0,
    pos := 9,
    total_messages := 1,
    collections := addMsgToCollections (refWrap c4State.current_timestamp 0)
      (.ppgRaw ⟨none, 0, 15⟩) c4State.collections }

/-- The state after `c1State` processes `AfeSettings(off_dac=10,
relative_gain=2.0)`. -/
def c4AfeAfter : ParserState :=
  { c1State with
    current_timestamp := refWrap c1State.current_timestamp 0,
    prev_timestamp := refWrap c1State.current_timestamp 0,
    current_off_dac := ratTrunc (-(10 : ℚ) * 2),
    pos := 13,
    total_messages := 1,
    collections := addMsgToCollections (refWrap c1State.current_timestamp 0)
      (.afeSettings ⟨none, 10, 2⟩) c1State.collections }

theorem c4_afe_version_gate_witness :
    c4After.collections.ppgRaw = c4State.collections.ppgRaw ++
      [(refWrap c4State.current_timestamp 0, (⟨none, 0, 15⟩ : PpgRawMsg))] ∧
    c4AfeAfter.current_off_dac = ratTrunc (-(10 : ℚ) * 2) :=
  ⟨(c4_afe_version_gate.2.1 c4State c4After ⟨none, 0, 5⟩ 8 (5, 0, 0)
      rfl rfl (by rfl)).2 rfl,
   c4_afe_version_gate.2.2.2.1 c1State c4AfeAfter ⟨none, 10, 2⟩ 12 rfl (by rfl)⟩

theorem processItem_false_isOk (s : ParserState) (i : StreamItem) :
    ∃ s', processItem false s i = .ok s' := by
  cases i with
  | unknownTag tag => exact ⟨_, rfl⟩
  | msg m msg_len =>
    cases m with
    | header h =>
      simp only [processItem, processHeader]
      split_ifs <;> first | exact ⟨_, rfl⟩ | simp_all
    | timestamp t =>
      by_cases hh : s.header_found = false
      · simp [processItem, hh]
      · rw [Bool.not_eq_false] at hh
        simp only [processItem, hh, Bool.true_eq_false, if_false, processTimestampMessage]
        split_ifs <;> first | exact ⟨_, rfl⟩ | simp_all
    | pulseBlockEcg b =>
      by_cases hh : s.header_found = false
      · simp [processItem, hh]
      · rw [Bool.not_eq_false] at hh
        simp [processItem, hh]
    | pulseBlockPpg b =>
      by_cases hh : s.header_found = false
      · simp [processItem, hh]
      · rw [Bool.not_eq_false] at hh
        simp [processItem, hh]
    | ppgRaw p =>
      by_cases hh : s.header_found = false
      · simp [processItem, hh]
      · rw [Bool.not_eq_false] at hh
        rw [processItem_ticked false s (.ppgRaw p) msg_len rfl hh, processTicked_eq]
        simp
    | ppgRawAll p =>
      by_cases hh : s.header_found = false
      · simp [processItem, hh]
      · rw [Bool.not_eq_false] at hh
        rw [processItem_ticked false s (.ppgRawAll p) msg_len rfl hh, processTicked_eq]
        simp
    | pulseRawList p =>
      by_cases hh : s.header_found = false
      · simp [processItem, hh]
      · rw [Bool.not_eq_false] at hh
        rw [processItem_ticked false s (.pulseRawList p) msg_len rfl hh, processTicked_eq]
        simp
    | afeSettings a =>
      by_cases hh : s.header_found = false
      · simp [processItem, hh]
      · rw [Bool.not_eq_false] at hh
        rw [processItem_ticked false s (.afeSettings a) msg_len rfl hh, processTicked_eq]
        simp
    | otherTicked t =>
      by_cases hh : s.header_found = false
      · simp [processItem, hh]
      · rw [Bool.not_eq_false] at hh
        rw [processItem_ticked false s (.otherTicked t) msg_len rfl hh, processTicked_eq]
        simp

theorem runParser_false_isOk (items : List StreamItem) :
    ∀ s : ParserState, ∃ s', runParser false items s = .ok s' := by
  induction items with
  | nil => exact fun s => ⟨s, rfl⟩
  | cons i l ih =>
    intro s
    obtain ⟨s1, h1⟩ := processItem_false_isOk s i
    obtain ⟨s2, h2⟩ := ih s1
    exact ⟨s2, by simp [runParser, h1, h2]⟩

/-- Claim C3: each recoverable-by-policy condition (unrecognized tag, header
or sync timestamp above the future-sanity ceiling, sync timestamp older than
the last full timestamp, timestamp older than the minimum sane epoch, a
greater-than-one-second jump between consecutive reconstructed timestamps)
raises in strict mode; with `fail_on_errors = false` the decode loop always
completes (the anomaly is only counted/logged), and an unknown tag advances
the position by exactly one byte, storing nothing. -/
theorem c3_strict_escalation :
    (∀ (s : ParserState) (tag : Nat),
      processItem true s (.unknownTag tag) = .error "Unknown message type" ∧
      processItem false s (.unknownTag tag) =
        .ok { s with unknown_msgs := s.unknown_msgs + 1, pos := s.pos + 1 }) ∧
    (∀ (s : ParserState) (h : HeaderMsg) (msg_len : Nat),
      MAX_TIMESTAMP < h.current_time →
      processItem true s (.msg (.header h) msg_len) =
        .error "Received full timestamp is greater than max") ∧
    (∀ (s : ParserState) (t : Int) (msg_len : Nat),
      s.header_found = true → MAX_TIMESTAMP < t →
      processItem true s (.msg (.timestamp t) msg_len) =
        .error "Received full timestamp is greater than max. Skipping") ∧
    (∀ (s : ParserState) (t : Int) (msg_len : Nat),
      s.header_found = true → t ≤ MAX_TIMESTAMP → t < s.last_full_timestamp →
      processItem true s (.msg (.timestamp t) msg_len) =
        .error "Received full timestamp is less than last_full_timestamp") ∧
    (∀ (s : ParserState) (m : Msg) (msg_len : Nat),
      m.isTicked = true → s.header_found = true →
      s.current_timestamp < MIN_TIMESTAMP →
      processItem true s (.msg m msg_len) = .error "Timestamp is too old") ∧
    (∀ (s : ParserState) (m : Msg) (msg_len : Nat),
      m.isTicked = true → s.header_found = true →
      MIN_TIMESTAMP ≤ s.current_timestamp → 0 < s.prev_timestamp →
      s.prev_timestamp + 1000 < refWrap s.current_timestamp (tickValue m) →
      processItem true s (.msg m msg_len) = .error "Jump greater than 1 sec") ∧
    (∀ (items : List StreamItem) (s : ParserState),
      ∃ s', runParser false items s = .ok s') := by
  refine ⟨fun s tag => ⟨rfl, rfl⟩, ?_, ?_, ?_, ?_, ?_, fun items s => runParser_false_isOk items s⟩
  · intro s h msg_len hmax
    simp [processItem, processHeader, hmax]
  · intro s t msg_len hh hmax
    simp [processItem, processTimestampMessage, hh, hmax]
  · intro s t msg_len hh hmax hlt
    simp [processItem, processTimestampMessage, hh, Int.not_lt.mpr hmax, hlt]
  · intro s m msg_len hm hh hold
    rw [processItem_ticked true s m msg_len hm hh, processTicked_eq]
    simp [hold]
  · intro s m msg_len hm hh hmin hprev hjump
    rw [processItem_ticked true s m msg_len hm hh, processTicked_eq]
    simp [Int.not_lt.mpr hmin, hprev, hjump]

theorem c3_strict_escalation_witness :
    processItem true ({} : ParserState) (.unknownTag 0) = .error "Unknown message type" ∧
    processItem false ({} : ParserState) (.unknownTag 0) =
      .ok { ({} : ParserState) with unknown_msgs := 1, pos := 1 } ∧
    processItem true ({} : ParserState)
      (.msg (.header ⟨1, (5, 0, 0), MAX_TIMESTAMP + 1⟩) 21) =
      .error "Received full timestamp is greater than max" ∧
    processItem true c1State (.msg (.timestamp (MAX_TIMESTAMP + 1)) 9) =
      .error "Received full timestamp is greater than max. Skipping" ∧
    processItem true { c1State with last_full_timestamp := 10 } (.msg (.timestamp 5) 9) =
      .error "Received full timestamp is less than last_full_timestamp" ∧
    processItem true { c1State with current_timestamp := 0 }
      (.msg (.otherTicked (some 7)) 3) = .error "Timestamp is too old" ∧
    processItem true { c1State with prev_timestamp := 1 }
      (.msg (.otherTicked (some 7)) 3) = .error "Jump greater than 1 sec" ∧
    ∃ s', runParser false [.unknownTag 0] ({} : ParserState) = .ok s' :=
  ⟨(c3_strict_escalation.1 {} 0).1,
   (c3_strict_escalation.1 {} 0).2,
   c3_strict_escalation.2.1 {} ⟨1, (5, 0, 0), MAX_TIMESTAMP + 1⟩ 21 (by decide),
   c3_strict_escalation.2.2.1 c1State (MAX_TIMESTAMP + 1) 9 rfl (by decide),
   c3_strict_escalation.2.2.2.1 { c1State with last_full_timestamp := 10 } 5 9 rfl
     (by decide) (by decide),
   c3_strict_escalation.2.2.2.2.1 { c1State with current_timestamp := 0 }
     (.otherTicked (some 7)) 3 rfl rfl (by decide),
   c3_strict_escalation.2.2.2.2.2.1 { c1State with prev_timestamp := 1 }
     (.otherTicked (some 7)) 3 rfl rfl (by decide) (by decide) (by decide),
   c3_strict_escalation.2.2.2.2.2.2 [.unknownTag 0] {}⟩

theorem runParser_no_header (fail_on_errors : Bool) (items : List StreamItem)
    (h1 : ∀ it ∈ items, it.carriesHeader = false)
    (h2 : fail_on_errors = false ∨ ∀ it ∈ items, it.isUnknown = false) :
    ∀ s : ParserState, s.header_found = false →
      ∃ s', runParser fail_on_errors items s = .ok s' ∧ s'.header_found = false ∧
        s'.collections = s.collections := by
  induction items with
  | nil => exact fun s hs => ⟨s, rfl, hs, rfl⟩
  | cons i l ih =>
    intro s hs
    have hstep : ∃ s1, processItem fail_on_errors s i = .ok s1 ∧
        s1.header_found = false ∧ s1.collections = s.collections := by
      cases i with
      | unknownTag tag =>
        rcases h2 with h2 | h2
        · subst h2
          exact ⟨_, rfl, hs, rfl⟩
        · have := h2 _ (List.mem_cons_self _ _)
          simp [StreamItem.isUnknown] at this
      | msg m msg_len =>
        have hm : m.isHeader = false := by
          have := h1 _ (List.mem_cons_self _ _)
          cases m <;> simp_all [StreamItem.carriesHeader, Msg.isHeader]
        exact ⟨_, c9_skip_before_header fail_on_errors s m msg_len hm hs, hs, rfl⟩
    obtain ⟨s1, e1, f1, c1⟩ := hstep
    have h1' : ∀ it ∈ l, it.carriesHeader = false :=
      fun it hit => h1 it (List.mem_cons_of_mem _ hit)
    have h2' : fail_on_errors = false ∨ ∀ it ∈ l, it.isUnknown = false := by
      rcases h2 with h2 | h2
      · exact Or.inl h2
      · exact Or.inr fun it hit => h2 it (List.mem_cons_of_mem _ hit)
    obtain ⟨s', e2, f2, c2⟩ := ih h1' h2' s1 f1
    exact ⟨s', by simp [runParser, e1, e2], f2, c2.trans c1⟩

/-- Claim C2: for every input stream in which no Header message is decoded
(including the empty stream), `read_data` fails with the missing-header
lookup error and returns no result, however many other valid messages the
stream contains (in strict mode the stream must additionally contain no
unknown tags, which would raise their own error first and are not valid
messages). -/
theorem c2_missing_header (fail_on_errors : Bool) (samplerate : ℚ)
    (items : List StreamItem)
    (h1 : ∀ it ∈ items, it.carriesHeader = false)
    (h2 : fail_on_errors = false ∨ ∀ it ∈ items, it.isUnknown = false) :
    read_data fail_on_errors samplerate items = .error "Missing header in input file" := by
  obtain ⟨s', hrun, hf, hcols⟩ := runParser_no_header fail_on_errors items h1 h2 {} rfl
  unfold read_data readDataInMemory
  rw [hrun]
  simp only [hcols]
  rfl

theorem c2_missing_header_witness :
    read_data true 1000 [.msg (.otherTicked (some 3)) 3, .msg (.timestamp 5) 9] =
      .error "Missing header in input file" :=
  c2_missing_header true 1000 [.msg (.otherTicked (some 3)) 3, .msg (.timestamp 5) 9]
    (by decide) (Or.inr (by decide))

/-- A stream whose only PulseBlockEcg message precedes its Header. -/
def c10Items : List StreamItem :=
  [ .msg (.pulseBlockEcg ⟨0, 1000, [1]⟩) 15,
    .msg (.header ⟨1, (5, 0, 0), 1700000000000⟩) 21 ]

/-- Claim C10 counterexample: this input contains a Header and a
PulseBlockEcg message and no PulseBlockPpg message, yet `read_data` succeeds
(no AssertionError): the block message precedes the Header, is skipped, and
block reassembly is never invoked. -/
theorem c10_counterexample :
    ((.msg (.header ⟨1, (5, 0, 0), 1700000000000⟩) 21 : StreamItem) ∈ c10Items) ∧
    ((.msg (.pulseBlockEcg ⟨0, 1000, [1]⟩) 15 : StreamItem) ∈ c10Items) ∧
    (∀ it ∈ c10Items, it.carriesBlockPpg = false) ∧
    (read_data false 1000 c10Items).toOption.isSome = true :=
  ⟨by decide, by decide, by decide, by rfl⟩

theorem header_found_mono (s s' : ParserState) (i : StreamItem)
    (hok : processItem false s i = .ok s') (hh : s.header_found = true) :
    s'.header_found = true := by
  cases i with
  | unknownTag tag =>
    simp only [processItem, Bool.false_eq_true, if_false, Except.ok.injEq] at hok
    subst hok
    exact hh
  | msg m msg_len =>
    cases m with
    | header h =>
      simp only [processItem, processHeader] at hok
      split_ifs at hok <;> simp_all <;> (subst hok; rfl)
    | timestamp t =>
      simp only [processItem, hh, Bool.true_eq_false, if_false,
        processTimestampMessage] at hok
      split_ifs at hok <;> simp_all <;> (subst hok; simp [hh])
    | pulseBlockEcg b =>
      simp only [processItem, hh, Bool.true_eq_false, if_false, Except.ok.injEq] at hok
      subst hok
      rfl
    | pulseBlockPpg b =>
      simp only [processItem, hh, Bool.true_eq_false, if_false, Except.ok.injEq] at hok
      subst hok
      rfl
    | ppgRaw p =>
      rw [processItem_ticked false s (.ppgRaw p) msg_len rfl hh, processTicked_eq] at hok
      simp only [and_false, if_false, Bool.false_eq_true, ite_false,
        Except.ok.injEq] at hok
      subst hok
      exact hh
    | ppgRawAll p =>
      rw [processItem_ticked false s (.ppgRawAll p) msg_len rfl hh, processTicked_eq] at hok
      simp only [and_false, if_false, Bool.false_eq_true, ite_false,
        Except.ok.injEq] at hok
      subst hok
      exact hh
    | pulseRawList p =>
      rw [processItem_ticked false s (.pulseRawList p) msg_len rfl hh,
        processTicked_eq] at hok
      simp only [and_false, if_false, Bool.false_eq_true, ite_false,
        Except.ok.injEq] at hok
      subst hok
      exact hh
    | afeSettings a =>
      rw [processItem_ticked false s (.afeSettings a) msg_len rfl hh,
        processTicked_eq] at hok
      simp only [and_false, if_false, Bool.false_eq_true, ite_false,
        Except.ok.injEq] at hok
      subst hok
      exact hh
    | otherTicked t =>
      rw [processItem_ticked false s (.otherTicked t) msg_len rfl hh,
        processTicked_eq] at hok
      simp only [and_false, if_false, Bool.false_eq_true, ite_false,
        Except.ok.injEq] at hok
      subst hok
      exact hh

theorem processItem_false_collections (s s' : ParserState) (i : StreamItem)
    (hok : processItem false s i = .ok s') :
    s'.collections = s.collections ∨
    ∃ ts m', s'.collections = addMsgToCollections ts m' s.collections ∧
      (i.carriesBlockPpg = false → ∀ b : BlockMsg, m' ≠ .pulseBlockPpg b) ∧
      (i.carriesBlockEcg = false → ∀ b : BlockMsg, m' ≠ .pulseBlockEcg b) := by
  cases i with
  | unknownTag tag =>
    simp only [processItem, Bool.false_eq_true, if_false, Except.ok.injEq] at hok
    subst hok
    exact Or.inl rfl
  | msg m msg_len =>
    by_cases hh : s.header_found = false
    · cases m with
      | header h =>
        simp only [processItem, processHeader, Bool.false_eq_true, if_false] at hok
        split_ifs at hok with hmax <;>
          (simp only [Except.ok.injEq] at hok; subst hok)
        · exact Or.inr ⟨s.current_timestamp, .header h, rfl,
            fun _ b h' => Msg.noConfusion h', fun _ b h' => Msg.noConfusion h'⟩
        · exact Or.inr ⟨h.current_time, .header h, rfl,
            fun _ b h' => Msg.noConfusion h', fun _ b h' => Msg.noConfusion h'⟩
      | timestamp t =>
        simp only [processItem, hh, if_true, Except.ok.injEq] at hok
        subst hok; exact Or.inl rfl
      | pulseBlockEcg b =>
        simp only [processItem, hh, if_true, Except.ok.injEq] at hok
        subst hok; exact Or.inl rfl
      | pulseBlockPpg b =>
        simp only [processItem, hh, if_true, Except.ok.injEq] at hok
        subst hok; exact Or.inl rfl
      | ppgRaw p =>
        simp only [processItem, hh, if_true, Except.ok.injEq] at hok
        subst hok; exact Or.inl rfl
      | ppgRawAll p =>
        simp only [processItem, hh, if_true, Except.ok.injEq] at hok
        subst hok; exact Or.inl rfl
      | pulseRawList p =>
        simp only [processItem, hh, if_true, Except.ok.injEq] at hok
        subst hok; exact Or.inl rfl
      | afeSettings a =>
        simp only [processItem, hh, if_true, Except.ok.injEq] at hok
        subst hok; exact Or.inl rfl
      | otherTicked t =>
        simp only [processItem, hh, if_true, Except.ok.injEq] at hok
        subst hok; exact Or.inl rfl
    · rw [Bool.not_eq_false] at hh
      cases m with
      | header h =>
        simp only [processItem, processHeader, Bool.false_eq_true, if_false] at hok
        split_ifs at hok with hmax <;>
          (simp only [Except.ok.injEq] at hok; subst hok)
        · exact Or.inr ⟨s.current_timestamp, .header h, rfl,
            fun _ b h' => Msg.noConfusion h', fun _ b h' => Msg.noConfusion h'⟩
        · exact Or.inr ⟨h.current_time, .header h, rfl,
            fun _ b h' => Msg.noConfusion h', fun _ b h' => Msg.noConfusion h'⟩
      | timestamp t =>
        simp only [processItem, hh, Bool.true_eq_false, if_false,
          processTimestampMessage, Bool.false_eq_true] at hok
        split_ifs at hok with h1 h2 <;>
          (simp only [Except.ok.injEq] at hok; subst hok)
        · exact Or.inr ⟨s.current_timestamp, .timestamp t, rfl,
            fun _ b h' => Msg.noConfusion h', fun _ b h' => Msg.noConfusion h'⟩
        · exact Or.inr ⟨s.current_timestamp, .timestamp t, rfl,
            fun _ b h' => Msg.noConfusion h', fun _ b h' => Msg.noConfusion h'⟩
        · exact Or.inr ⟨t, .timestamp t, rfl,
            fun _ b h' => Msg.noConfusion h', fun _ b h' => Msg.noConfusion h'⟩
      | pulseBlockEcg b =>
        simp only [processItem, hh, Bool.true_eq_false, if_false, Except.ok.injEq] at hok
        subst hok
        exact Or.inr ⟨b.time, .pulseBlockEcg b, rfl, fun _ b' h' => Msg.noConfusion h',
          fun hc => by simp [StreamItem.carriesBlockEcg] at hc⟩
      | pulseBlockPpg b =>
        simp only [processItem, hh, Bool.true_eq_false, if_false, Except.ok.injEq] at hok
        subst hok
        exact Or.inr ⟨b.time, .pulseBlockPpg b, rfl,
          fun hc => by simp [StreamItem.carriesBlockPpg] at hc,
          fun _ b' h' => Msg.noConfusion h'⟩
      | ppgRaw p =>
        rw [processItem_ticked false s (.ppgRaw p) msg_len rfl hh, processTicked_eq] at hok
        simp only [and_false, if_false, Bool.false_eq_true, ite_false,
          Except.ok.injEq] at hok
        subst hok
        exact Or.inr ⟨refWrap s.current_timestamp (tickValue (.ppgRaw p)),
          (correctMsg (shouldAdjustPpg s.version) s.current_off_dac (.ppgRaw p)).1, rfl,
          fun _ b => by simp [correctMsg], fun _ b => by simp [correctMsg]⟩
      | ppgRawAll p =>
        rw [processItem_ticked false s (.ppgRawAll p) msg_len rfl hh,
          processTicked_eq] at hok
        simp only [and_false, if_false, Bool.false_eq_true, ite_false,
          Except.ok.injEq] at hok
        subst hok
        exact Or.inr ⟨refWrap s.current_timestamp (tickValue (.ppgRawAll p)),
          (correctMsg (shouldAdjustPpg s.version) s.current_off_dac (.ppgRawAll p)).1, rfl,
          fun _ b => by simp [correctMsg], fun _ b => by simp [correctMsg]⟩
      | pulseRawList p =>
        rw [processItem_ticked false s (.pulseRawList p) msg_len rfl hh,
          processTicked_eq] at hok
        simp only [and_false, if_false, Bool.false_eq_true, ite_false,
          Except.ok.injEq] at hok
        subst hok
        exact Or.inr ⟨refWrap s.current_timestamp (tickValue (.pulseRawList p)),
          (correctMsg (shouldAdjustPpg s.version) s.current_off_dac (.pulseRawList p)).1, rfl,
          fun _ b => by simp [correctMsg], fun _ b => by simp [correctMsg]⟩
      | afeSettings a =>
        rw [processItem_ticked false s (.afeSettings a) msg_len rfl hh,
          processTicked_eq] at hok
        simp only [and_false, if_false, Bool.false_eq_true, ite_false,
          Except.ok.injEq] at hok
        subst hok
        exact Or.inr ⟨refWrap s.current_timestamp (tickValue (.afeSettings a)),
          (correctMsg (shouldAdjustPpg s.version) s.current_off_dac (.afeSettings a)).1, rfl,
          fun _ b => by simp [correctMsg], fun _ b => by simp [correctMsg]⟩
      | otherTicked t =>
        rw [processItem_ticked false s (.otherTicked t) msg_len rfl hh,
          processTicked_eq] at hok
        simp only [and_false, if_false, Bool.false_eq_true, ite_false,
          Except.ok.injEq] at hok
        subst hok
        exact Or.inr ⟨refWrap s.current_timestamp (tickValue (.otherTicked t)),
          (correctMsg (shouldAdjustPpg s.version) s.current_off_dac (.otherTicked t)).1, rfl,
          fun _ b => by simp [correctMsg], fun _ b => by simp [correctMsg]⟩

theorem addMsg_blockEcg_ne (ts : Int) (m : Msg) (cols : Collections)
    (h : cols.blockEcg ≠ []) : (addMsgToCollections ts m cols).blockEcg ≠ [] := by
  cases m <;> simp_all [addMsgToCollections]

theorem addMsg_blockPpg_eq (ts : Int) (m : Msg) (cols : Collections)
    (hm : ∀ b, m ≠ .pulseBlockPpg b) :
    (addMsgToCollections ts m cols).blockPpg = cols.blockPpg := by
  cases m <;> first | (exact absurd rfl (hm _)) | simp [addMsgToCollections]

theorem step_blockEcg_ne (s s' : ParserState) (i : StreamItem)
    (hok : processItem false s i = .ok s') (h : s.collections.blockEcg ≠ []) :
    s'.collections.blockEcg ≠ [] := by
  rcases processItem_false_collections s s' i hok with hsame | ⟨ts, m', heq, _, _⟩
  · rw [hsame]; exact h
  · rw [heq]; exact addMsg_blockEcg_ne ts m' s.collections h

theorem step_blockPpg_eq (s s' : ParserState) (i : StreamItem)
    (hok : processItem false s i = .ok s') (hi : i.carriesBlockPpg = false) :
    s'.collections.blockPpg = s.collections.blockPpg := by
  rcases processItem_false_collections s s' i hok with hsame | ⟨ts, m', heq, hnm, _⟩
  · rw [hsame]
  · rw [heq]; exact addMsg_blockPpg_eq ts m' s.collections (hnm hi)

theorem addMsg_blockPpg_ne (ts : Int) (m : Msg) (cols : Collections)
    (h : cols.blockPpg ≠ []) : (addMsgToCollections ts m cols).blockPpg ≠ [] := by
  cases m <;> simp_all [addMsgToCollections]

theorem addMsg_blockEcg_eq (ts : Int) (m : Msg) (cols : Collections)
    (hm : ∀ b, m ≠ .pulseBlockEcg b) :
    (addMsgToCollections ts m cols).blockEcg = cols.blockEcg := by
  cases m <;> first | (exact absurd rfl (hm _)) | simp [addMsgToCollections]

theorem step_blockPpg_ne (s s' : ParserState) (i : StreamItem)
    (hok : processItem false s i = .ok s') (h : s.collections.blockPpg ≠ []) :
    s'.collections.blockPpg ≠ [] := by
  rcases processItem_false_collections s s' i hok with hsame | ⟨ts, m', heq, _, _⟩
  · rw [hsame]; exact h
  · rw [heq]; exact addMsg_blockPpg_ne ts m' s.collections h

theorem step_blockEcg_eq (s s' : ParserState) (i : StreamItem)
    (hok : processItem false s i = .ok s') (hi : i.carriesBlockEcg = false) :
    s'.collections.blockEcg = s.collections.blockEcg := by
  rcases processItem_false_collections s s' i hok with hsame | ⟨ts, m', heq, _, hne⟩
  · rw [hsame]
  · rw [heq]; exact addMsg_blockEcg_eq ts m' s.collections (hne hi)

theorem runParser_false_inv (P : ParserState → Prop) (l : List StreamItem)
    (hstep : ∀ s i, i ∈ l → P s → ∀ s', processItem false s i = .ok s' → P s') :
    ∀ s s', P s → runParser false l s = .ok s' → P s' := by
  induction l with
  | nil =>
    intro s s' hP h
    simp only [runParser, Except.ok.injEq] at h
    subst h
    exact hP
  | cons i t ih =>
    intro s s' hP h
    simp only [runParser] at h
    cases hpi : processItem false s i with
    | error e => rw [hpi] at h; cases h
    | ok s1 =>
      rw [hpi] at h
      exact ih (fun s2 i2 hi2 => hstep s2 i2 (List.mem_cons_of_mem _ hi2)) s1 s'
        (hstep s i (List.mem_cons_self _ _) hP s1 hpi) h

theorem runParser_false_append (l1 l2 : List StreamItem) :
    ∀ s s1 : ParserState, runParser false l1 s = .ok s1 →
      runParser false (l1 ++ l2) s = runParser false l2 s1 := by
  induction l1 with
  | nil =>
    intro s s1 h
    simp only [runParser, Except.ok.injEq] at h
    subst h
    simp
  | cons i t ih =>
    intro s s1 h
    simp only [runParser, List.cons_append] at h ⊢
    cases hpi : processItem false s i with
    | error e =>
      rw [hpi] at h
      exact Except.noConfusion h
    | ok s2 =>
      rw [hpi] at h
      exact ih s2 s1 h

theorem processHeader_false_props (s : ParserState) (h : HeaderMsg) (msg_len : Nat) :
    ∃ s', processItem false s (.msg (.header h) msg_len) = .ok s' ∧
      s'.header_found = true ∧
      s'.collections.blockEcg = s.collections.blockEcg ∧
      s'.collections.blockPpg = s.collections.blockPpg := by
  simp only [processItem, processHeader, Bool.false_eq_true, if_false]
  split_ifs with hmax
  · exact ⟨_, rfl, rfl, by simp [addMsgToCollections], by simp [addMsgToCollections]⟩
  · exact ⟨_, rfl, rfl, by simp [addMsgToCollections], by simp [addMsgToCollections]⟩

theorem processBlockEcg_false_props (s : ParserState) (b : BlockMsg) (msg_len : Nat)
    (hh : s.header_found = true) :
    ∃ s', processItem false s (.msg (.pulseBlockEcg b) msg_len) = .ok s' ∧
      s'.header_found = true ∧ s'.collections.blockEcg ≠ [] ∧
      s'.collections.blockPpg = s.collections.blockPpg := by
  simp only [processItem, hh, Bool.true_eq_false, if_false]
  exact ⟨_, rfl, rfl, by simp [addMsgToCollections], by simp [addMsgToCollections]⟩

theorem processBlockPpg_false_props (s : ParserState) (b : BlockMsg) (msg_len : Nat)
    (hh : s.header_found = true) :
    ∃ s', processItem false s (.msg (.pulseBlockPpg b) msg_len) = .ok s' ∧
      s'.header_found = true ∧ s'.collections.blockPpg ≠ [] ∧
      s'.collections.blockEcg = s.collections.blockEcg := by
  simp only [processItem, hh, Bool.true_eq_false, if_false]
  exact ⟨_, rfl, rfl, by simp [addMsgToCollections], by simp [addMsgToCollections]⟩

/-- Claim C10 as amended: for every input in which at least one block
message of one kind appears after the first Header and no block message of
the other kind appears anywhere, `read_data` with `fail_on_errors = false`
fails with the AssertionError of block reassembly — in both directions:
a PulseBlockEcg with no PulseBlockPpg, and a PulseBlockPpg with no
PulseBlockEcg (a block message appearing only before the first Header is
skipped and does not trigger reassembly). -/
theorem c10_assertion_one_sided_blocks (pre mid post : List StreamItem)
    (h : HeaderMsg) (hlen : Nat) (b : BlockMsg) (blen : Nat) (samplerate : ℚ) :
    ((∀ it ∈ pre ++ (.msg (.header h) hlen ::
        (mid ++ (.msg (.pulseBlockEcg b) blen :: post))),
      it.carriesBlockPpg = false) →
      read_data false samplerate
        (pre ++ (.msg (.header h) hlen ::
          (mid ++ (.msg (.pulseBlockEcg b) blen :: post)))) =
        .error "AssertionError: ppg_messages is None") ∧
    ((∀ it ∈ pre ++ (.msg (.header h) hlen ::
        (mid ++ (.msg (.pulseBlockPpg b) blen :: post))),
      it.carriesBlockEcg = false) →
      read_data false samplerate
        (pre ++ (.msg (.header h) hlen ::
          (mid ++ (.msg (.pulseBlockPpg b) blen :: post)))) =
        .error "AssertionError: ecg_messages is None") := by
  constructor
  · intro hnoppg
    obtain ⟨s1, e1⟩ := runParser_false_isOk pre {}
    have hppg1 : s1.collections.blockPpg = [] :=
      runParser_false_inv (fun st => st.collections.blockPpg = []) pre
        (fun s i hi hP s' hok =>
          (step_blockPpg_eq s s' i hok (hnoppg i (by simp [hi]))).trans hP)
        {} s1 rfl e1
    obtain ⟨s2, e2, f2, eE2, eP2⟩ := processHeader_false_props s1 h hlen
    obtain ⟨s3, e3⟩ := runParser_false_isOk mid s2
    have inv3 : s3.header_found = true ∧ s3.collections.blockPpg = [] :=
      runParser_false_inv
        (fun st => st.header_found = true ∧ st.collections.blockPpg = []) mid
        (fun s i hi hP s' hok =>
          ⟨header_found_mono s s' i hok hP.1,
           (step_blockPpg_eq s s' i hok (hnoppg i (by simp [hi]))).trans hP.2⟩)
        s2 s3 ⟨f2, eP2.trans hppg1⟩ e3
    obtain ⟨s4, e4, f4, hE4, eP4⟩ := processBlockEcg_false_props s3 b blen inv3.1
    obtain ⟨s5, e5⟩ := runParser_false_isOk post s4
    have inv5 : s5.collections.blockEcg ≠ [] ∧ s5.collections.blockPpg = [] :=
      runParser_false_inv
        (fun st => st.collections.blockEcg ≠ [] ∧ st.collections.blockPpg = []) post
        (fun s i hi hP s' hok =>
          ⟨step_blockEcg_ne s s' i hok hP.1,
           (step_blockPpg_eq s s' i hok (hnoppg i (by simp [hi]))).trans hP.2⟩)
        s4 s5 ⟨hE4, eP4.trans inv3.2⟩ e5
    have hrun : runParser false
        (pre ++ (.msg (.header h) hlen ::
          (mid ++ (.msg (.pulseBlockEcg b) blen :: post)))) {} =
        .ok s5 := by
      rw [runParser_false_append pre
        (.msg (.header h) hlen :: (mid ++ (.msg (.pulseBlockEcg b) blen :: post))) {} s1 e1]
      rw [show runParser false
          (.msg (.header h) hlen :: (mid ++ (.msg (.pulseBlockEcg b) blen :: post))) s1 =
          runParser false (mid ++ (.msg (.pulseBlockEcg b) blen :: post)) s2 from by
        simp [runParser, e2]]
      rw [runParser_false_append mid
        (.msg (.pulseBlockEcg b) blen :: post) s2 s3 e3]
      simp [runParser, e4, e5]
    unfold read_data readDataInMemory
    rw [hrun]
    simp only []
    rw [if_pos (Or.inl inv5.1)]
    unfold convertBlockMessages
    rw [if_neg inv5.1, if_pos inv5.2]
  · intro hnoecg
    obtain ⟨s1, e1⟩ := runParser_false_isOk pre {}
    have hecg1 : s1.collections.blockEcg = [] :=
      runParser_false_inv (fun st => st.collections.blockEcg = []) pre
        (fun s i hi hP s' hok =>
          (step_blockEcg_eq s s' i hok (hnoecg i (by simp [hi]))).trans hP)
        {} s1 rfl e1
    obtain ⟨s2, e2, f2, eE2, eP2⟩ := processHeader_false_props s1 h hlen
    obtain ⟨s3, e3⟩ := runParser_false_isOk mid s2
    have inv3 : s3.header_found = true ∧ s3.collections.blockEcg = [] :=
      runParser_false_inv
        (fun st => st.header_found = true ∧ st.collections.blockEcg = []) mid
        (fun s i hi hP s' hok =>
          ⟨header_found_mono s s' i hok hP.1,
           (step_blockEcg_eq s s' i hok (hnoecg i (by simp [hi]))).trans hP.2⟩)
        s2 s3 ⟨f2, eE2.trans hecg1⟩ e3
    obtain ⟨s4, e4, f4, hP4, eE4⟩ := processBlockPpg_false_props s3 b blen inv3.1
    obtain ⟨s5, e5⟩ := runParser_false_isOk post s4
    have inv5 : s5.collections.blockPpg ≠ [] ∧ s5.collections.blockEcg = [] :=
      runParser_false_inv
        (fun st => st.collections.blockPpg ≠ [] ∧ st.collections.blockEcg = []) post
        (fun s i hi hP s' hok =>
          ⟨step_blockPpg_ne s s' i hok hP.1,
           (step_blockEcg_eq s s' i hok (hnoecg i (by simp [hi]))).trans hP.2⟩)
        s4 s5 ⟨hP4, eE4.trans inv3.2⟩ e5
    have hrun : runParser false
        (pre ++ (.msg (.header h) hlen ::
          (mid ++ (.msg (.pulseBlockPpg b) blen :: post)))) {} =
        .ok s5 := by
      rw [runParser_false_append pre
        (.msg (.header h) hlen :: (mid ++ (.msg (.pulseBlockPpg b) blen :: post))) {} s1 e1]
      rw [show runParser false
          (.msg (.header h) hlen :: (mid ++ (.msg (.pulseBlockPpg b) blen :: post))) s1 =
          runParser false (mid ++ (.msg (.pulseBlockPpg b) blen :: post)) s2 from by
        simp [runParser, e2]]
      rw [runParser_false_append mid
        (.msg (.pulseBlockPpg b) blen :: post) s2 s3 e3]
      simp [runParser, e4, e5]
    unfold read_data readDataInMemory
    rw [hrun]
    simp only []
    rw [if_pos (Or.inr inv5.1)]
    unfold convertBlockMessages
    rw [if_pos inv5.2]

theorem c10_assertion_one_sided_blocks_witness :
    (read_data false 1000
      ([] ++ (.msg (.header ⟨1, (5, 0, 0), 1700000000000⟩) 21 ::
        ([] ++ (.msg (.pulseBlockEcg ⟨0, 1000, [1]⟩) 15 :: [])))) =
      .error "AssertionError: ppg_messages is None") ∧
    (read_data false 1000
      ([] ++ (.msg (.header ⟨1, (5, 0, 0), 1700000000000⟩) 21 ::
        ([] ++ (.msg (.pulseBlockPpg ⟨0, 1000, [1]⟩) 15 :: [])))) =
      .error "AssertionError: ecg_messages is None") :=
  ⟨(c10_assertion_one_sided_blocks [] [] [] ⟨1, (5, 0, 0), 1700000000000⟩ 21
      ⟨0, 1000, [1]⟩ 15 1000).1 (by decide),
   (c10_assertion_one_sided_blocks [] [] [] ⟨1, (5, 0, 0), 1700000000000⟩ 21
      ⟨0, 1000, [1]⟩ 15 1000).2 (by decide)⟩

theorem getD_set_self_int (l : List Int) (i : Nat) (v : Int) (hi : i < l.length) :
    (l.set i v).getD i 0 = v := by
  simp [List.getD_eq_getElem?_getD, List.getElem?_set, hi]

theorem getD_set_ne_int (l : List Int) (i j : Nat) (v : Int) (hij : i ≠ j) :
    (l.set i v).getD j 0 = l.getD j 0 := by
  simp [List.getD_eq_getElem?_getD, List.getElem?_set, hij]

theorem getD_replicate_int (n i : Nat) : (List.replicate n (0 : Int)).getD i 0 = 0 := by
  simp only [List.getD_eq_getElem?_getD, List.getElem?_replicate]
  split <;> rfl

/-- Invariant of one merged multi-channel record produced by block
reassembly: channel arrays are exactly the session-wide channel counts wide,
and every slot is either the zero fill or traceable to a sample of a block of
that channel (ECG as-is, PPG negated). -/
def RecordInv (eB pB : List (Int × BlockMsg)) (nE nP : Nat) (r : PulseRawListMsg) : Prop :=
  r.no_of_ecgs = nE ∧ r.no_of_ppgs = nP ∧ r.ecgs.length = nE ∧ r.ppgs.length = nP ∧
  (∀ i, i < nE → r.ecgs.getD i 0 = 0 ∨
    ∃ tb ∈ eB, tb.2.channel = i ∧ r.ecgs.getD i 0 ∈ tb.2.samples) ∧
  (∀ j, j < nP → r.ppgs.getD j 0 = 0 ∨
    ∃ tb ∈ pB, tb.2.channel = j ∧ -(r.ppgs.getD j 0) ∈ tb.2.samples)

/-- Predicate `RecordInv` for every entry of the merged dictionary. -/
def MergedInv (eB pB : List (Int × BlockMsg)) (nE nP : Nat) (m : Merged) : Prop :=
  ∀ p ∈ m, RecordInv eB pB nE nP p.2

theorem recordInv_empty (eB pB : List (Int × BlockMsg)) (nE nP : Nat) :
    RecordInv eB pB nE nP (emptyPulseRawList nE nP) := by
  refine ⟨rfl, rfl, List.length_replicate _ _, List.length_replicate _ _, ?_, ?_⟩
  · intro i _
    exact Or.inl (getD_replicate_int nE i)
  · intro j _
    exact Or.inl (getD_replicate_int nP j)

theorem recordInv_setEcg (eB pB : List (Int × BlockMsg)) (nE nP ch : Nat)
    (r : PulseRawListMsg) (v : Int) (hr : RecordInv eB pB nE nP r) (hch : ch < nE)
    (htr : ∃ tb ∈ eB, tb.2.channel = ch ∧ v ∈ tb.2.samples) :
    RecordInv eB pB nE nP { r with ecgs := r.ecgs.set ch v } := by
  obtain ⟨h1, h2, h3, h4, h5, h6⟩ := hr
  refine ⟨h1, h2, by simpa using h3, h4, ?_, h6⟩
  intro i hi
  by_cases hic : ch = i
  · subst hic
    rw [getD_set_self_int _ _ _ (h3 ▸ hch)]
    exact Or.inr htr
  · rw [getD_set_ne_int _ _ _ _ hic]
    exact h5 i hi

theorem recordInv_setPpg (eB pB : List (Int × BlockMsg)) (nE nP ch : Nat)
    (r : PulseRawListMsg) (v : Int) (hr : RecordInv eB pB nE nP r) (hch : ch < nP)
    (htr : ∃ tb ∈ pB, tb.2.channel = ch ∧ v ∈ tb.2.samples) :
    RecordInv eB pB nE nP { r with ppgs := r.ppgs.set ch (-v) } := by
  obtain ⟨h1, h2, h3, h4, h5, h6⟩ := hr
  refine ⟨h1, h2, h3, by simpa using h4, h5, ?_⟩
  intro j hj
  by_cases hjc : ch = j
  · subst hjc
    rw [getD_set_self_int _ _ _ (h4 ▸ hch)]
    exact Or.inr (by simpa using htr)
  · rw [getD_set_ne_int _ _ _ _ hjc]
    exact h6 j hj

theorem lookupMerged_recordInv (eB pB : List (Int × BlockMsg)) (nE nP : Nat)
    (mg : Merged) (k : Int) (r : PulseRawListMsg)
    (hinv : MergedInv eB pB nE nP mg) (hl : lookupMerged mg k = some r) :
    RecordInv eB pB nE nP r := by
  unfold lookupMerged at hl
  rcases Option.map_eq_some'.mp hl with ⟨pr, hfind, hsnd⟩
  have hmem := List.mem_of_find?_eq_some hfind
  subst hsnd
  exact hinv pr hmem

theorem mergedInv_setMerged (eB pB : List (Int × BlockMsg)) (nE nP : Nat)
    (mg : Merged) (k : Int) (v : PulseRawListMsg)
    (hinv : MergedInv eB pB nE nP mg) (hv : RecordInv eB pB nE nP v) :
    MergedInv eB pB nE nP (setMerged mg k v) := by
  intro q hq
  unfold setMerged at hq
  rcases List.mem_map.mp hq with ⟨p0, hp0, hq'⟩
  by_cases hpk : p0.1 = k
  · rw [if_pos hpk] at hq'
    rw [← hq']
    exact hv
  · rw [if_neg hpk] at hq'
    rw [← hq']
    exact hinv p0 hp0

theorem ecgSampleStep_inv (interval : ℚ) (eB pB : List (Int × BlockMsg)) (nE nP ch : Nat)
    (st : (List Int × List Nat) × Merged) (v : Int)
    (hch : ch < nE)
    (htr : ∃ tb ∈ eB, tb.2.channel = ch ∧ v ∈ tb.2.samples)
    (hinv : MergedInv eB pB nE nP st.2) :
    MergedInv eB pB nE nP (ecgSampleStep interval nE nP ch st v).2 := by
  unfold ecgSampleStep
  simp only []
  cases hl : lookupMerged st.2
      (ratTrunc ((st.1.1.getD ch 0 : ℚ) + (st.1.2.getD ch 0 : ℚ) * interval)) with
  | none =>
    intro q hq
    rcases List.mem_append.mp hq with hq1 | hq1
    · exact hinv q hq1
    · rcases List.mem_singleton.mp hq1 with rfl
      exact recordInv_setEcg eB pB nE nP ch _ v (recordInv_empty eB pB nE nP) hch htr
  | some r =>
    exact mergedInv_setMerged eB pB nE nP st.2 _ _ hinv
      (recordInv_setEcg eB pB nE nP ch r v
        (lookupMerged_recordInv eB pB nE nP st.2 _ r hinv hl) hch htr)

theorem ppgSampleStep_inv (interval : ℚ) (eB pB : List (Int × BlockMsg)) (nE nP ch : Nat)
    (st : (List Int × List Nat) × Merged) (v : Int)
    (hch : ch < nP)
    (htr : ∃ tb ∈ pB, tb.2.channel = ch ∧ v ∈ tb.2.samples)
    (hinv : MergedInv eB pB nE nP st.2) :
    MergedInv eB pB nE nP (ppgSampleStep interval nE nP ch st v).2 := by
  unfold ppgSampleStep
  simp only []
  cases hl : lookupMerged st.2
      (ratTrunc ((st.1.1.getD ch 0 : ℚ) + (st.1.2.getD ch 0 : ℚ) * interval)) with
  | none =>
    intro q hq
    rcases List.mem_append.mp hq with hq1 | hq1
    · exact hinv q hq1
    · rcases List.mem_singleton.mp hq1 with rfl
      exact recordInv_setPpg eB pB nE nP ch _ v (recordInv_empty eB pB nE nP) hch htr
  | some r =>
    exact mergedInv_setMerged eB pB nE nP st.2 _ _ hinv
      (recordInv_setPpg eB pB nE nP ch r v
        (lookupMerged_recordInv eB pB nE nP st.2 _ r hinv hl) hch htr)

theorem foldl_ecgSampleStep_inv (interval : ℚ) (eB pB : List (Int × BlockMsg))
    (nE nP ch : Nat) (hch : ch < nE)
    (samples : List Int)
    (htr : ∀ v ∈ samples, ∃ tb ∈ eB, tb.2.channel = ch ∧ v ∈ tb.2.samples) :
    ∀ st : (List Int × List Nat) × Merged, MergedInv eB pB nE nP st.2 →
      MergedInv eB pB nE nP ((samples.foldl (ecgSampleStep interval nE nP ch) st)).2 := by
  induction samples with
  | nil => exact fun st h => h
  | cons v t ih =>
    intro st hinv
    exact ih (fun w hw => htr w (List.mem_cons_of_mem _ hw)) _
      (ecgSampleStep_inv interval eB pB nE nP ch st v hch
        (htr v (List.mem_cons_self _ _)) hinv)

theorem foldl_ppgSampleStep_inv (interval : ℚ) (eB pB : List (Int × BlockMsg))
    (nE nP ch : Nat) (hch : ch < nP)
    (samples : List Int)
    (htr : ∀ v ∈ samples, ∃ tb ∈ pB, tb.2.channel = ch ∧ v ∈ tb.2.samples) :
    ∀ st : (List Int × List Nat) × Merged, MergedInv eB pB nE nP st.2 →
      MergedInv eB pB nE nP ((samples.foldl (ppgSampleStep interval nE nP ch) st)).2 := by
  induction samples with
  | nil => exact fun st h => h
  | cons v t ih =>
    intro st hinv
    exact ih (fun w hw => htr w (List.mem_cons_of_mem _ hw)) _
      (ppgSampleStep_inv interval eB pB nE nP ch st v hch
        (htr v (List.mem_cons_self _ _)) hinv)

theorem foldl_max_le_init (l : List (Int × BlockMsg)) :
    ∀ a : Nat, a ≤ l.foldl (fun acc p => max (p.2.channel + 1) acc) a := by
  induction l with
  | nil => exact fun a => le_rfl
  | cons q t ih =>
    intro a
    exact le_trans (le_max_right (q.2.channel + 1) a) (ih (max (q.2.channel + 1) a))

theorem channel_succ_le_foldl (l : List (Int × BlockMsg)) (pb : Int × BlockMsg) :
    ∀ a : Nat, pb ∈ l →
      pb.2.channel + 1 ≤ l.foldl (fun acc p => max (p.2.channel + 1) acc) a := by
  induction l with
  | nil => intro a h; cases h
  | cons q t ih =>
    intro a h
    rcases List.mem_cons.mp h with rfl | hmem
    · exact le_trans (le_max_left _ a) (foldl_max_le_init t _)
    · exact ih _ hmem

theorem channel_lt_maxChannels (l : List (Int × BlockMsg)) (pb : Int × BlockMsg)
    (h : pb ∈ l) : pb.2.channel < maxChannels l :=
  channel_succ_le_foldl l pb 0 h

theorem ecgBlockStep_inv (interval : ℚ) (eB pB : List (Int × BlockMsg)) (nP : Nat)
    (st : (List Int × List Nat) × Merged) (pb : Int × BlockMsg) (hmem : pb ∈ eB)
    (hinv : MergedInv eB pB (maxChannels eB) nP st.2) :
    MergedInv eB pB (maxChannels eB) nP
      (ecgBlockStep interval (maxChannels eB) nP st pb.2).2 := by
  unfold ecgBlockStep
  simp only []
  exact foldl_ecgSampleStep_inv interval eB pB (maxChannels eB) nP pb.2.channel
    (channel_lt_maxChannels eB pb hmem) pb.2.samples
    (fun v hv => ⟨pb, hmem, rfl, hv⟩) _ hinv

theorem ppgBlockStep_inv (interval : ℚ) (eB pB : List (Int × BlockMsg)) (nE : Nat)
    (st : (List Int × List Nat) × Merged) (pb : Int × BlockMsg) (hmem : pb ∈ pB)
    (hinv : MergedInv eB pB nE (maxChannels pB) st.2) :
    MergedInv eB pB nE (maxChannels pB)
      (ppgBlockStep interval nE (maxChannels pB) st pb.2).2 := by
  unfold ppgBlockStep
  simp only []
  exact foldl_ppgSampleStep_inv interval eB pB nE (maxChannels pB) pb.2.channel
    (channel_lt_maxChannels pB pb hmem) pb.2.samples
    (fun v hv => ⟨pb, hmem, rfl, hv⟩) _ hinv

theorem foldl_ecgBlockStep_inv (interval : ℚ) (eB pB : List (Int × BlockMsg)) (nP : Nat)
    (l : List (Int × BlockMsg)) (hsub : ∀ pb ∈ l, pb ∈ eB) :
    ∀ st : (List Int × List Nat) × Merged, MergedInv eB pB (maxChannels eB) nP st.2 →
      MergedInv eB pB (maxChannels eB) nP
        ((l.foldl (fun st p => ecgBlockStep interval (maxChannels eB) nP st p.2) st)).2 := by
  induction l with
  | nil => exact fun st h => h
  | cons pb t ih =>
    intro st hinv
    exact ih (fun q hq => hsub q (List.mem_cons_of_mem _ hq)) _
      (ecgBlockStep_inv interval eB pB nP st pb (hsub pb (List.mem_cons_self _ _)) hinv)

theorem foldl_ppgBlockStep_inv (interval : ℚ) (eB pB : List (Int × BlockMsg)) (nE : Nat)
    (l : List (Int × BlockMsg)) (hsub : ∀ pb ∈ l, pb ∈ pB) :
    ∀ st : (List Int × List Nat) × Merged, MergedInv eB pB nE (maxChannels pB) st.2 →
      MergedInv eB pB nE (maxChannels pB)
        ((l.foldl (fun st p => ppgBlockStep interval nE (maxChannels pB) st p.2) st)).2 := by
  induction l with
  | nil => exact fun st h => h
  | cons pb t ih =>
    intro st hinv
    exact ih (fun q hq => hsub q (List.mem_cons_of_mem _ hq)) _
      (ppgBlockStep_inv interval eB pB nE st pb (hsub pb (List.mem_cons_self _ _)) hinv)

/-- Claim C5: whenever block messages are present, after reassembly every
merged record has exactly `max ECG channel index + 1` ECG slots and
`max PPG channel index + 1` PPG slots (the session-wide maxima over all
blocks of each kind), each slot either zero-filled (channel not written at
that timestamp) or holding an ECG sample as-is / a PPG sample negated; and in
the returned collections the block sequences are cleared while the
PulseRawList collection holds the merged records. -/
theorem c5_block_reassembly (cols : Collections) (samplerate : ℚ) (cols' : Collections)
    (hE : ¬cols.blockEcg = []) (hP : ¬cols.blockPpg = [])
    (hconv : convertBlockMessages cols samplerate = .ok cols') :
    cols'.blockEcg = [] ∧ cols'.blockPpg = [] ∧
    ∀ p ∈ cols'.pulseRawList,
      p.2.no_of_ecgs = maxChannels cols.blockEcg ∧
      p.2.no_of_ppgs = maxChannels cols.blockPpg ∧
      p.2.ecgs.length = maxChannels cols.blockEcg ∧
      p.2.ppgs.length = maxChannels cols.blockPpg ∧
      (∀ i, i < maxChannels cols.blockEcg →
        p.2.ecgs.getD i 0 = 0 ∨
        ∃ tb ∈ cols.blockEcg, tb.2.channel = i ∧ p.2.ecgs.getD i 0 ∈ tb.2.samples) ∧
      (∀ j, j < maxChannels cols.blockPpg →
        p.2.ppgs.getD j 0 = 0 ∨
        ∃ tb ∈ cols.blockPpg, tb.2.channel = j ∧ -(p.2.ppgs.getD j 0) ∈ tb.2.samples) := by
  unfold convertBlockMessages at hconv
  rw [if_neg hE, if_neg hP] at hconv
  simp only [Except.ok.injEq] at hconv
  subst hconv
  refine ⟨rfl, rfl, ?_⟩
  have hecg := foldl_ecgBlockStep_inv (1000 / samplerate) cols.blockEcg cols.blockPpg
    (maxChannels cols.blockPpg) cols.blockEcg (fun pb h => h)
    ((List.replicate (maxChannels cols.blockEcg) 0,
      List.replicate (maxChannels cols.blockEcg) 0), [])
    (fun q hq => absurd hq (List.not_mem_nil q))
  have hppg := foldl_ppgBlockStep_inv (1000 / samplerate) cols.blockEcg cols.blockPpg
    (maxChannels cols.blockEcg) cols.blockPpg (fun pb h => h)
    ((List.replicate (maxChannels cols.blockPpg) 0,
      List.replicate (maxChannels cols.blockPpg) 0),
      (cols.blockEcg.foldl
        (fun st p => ecgBlockStep (1000 / samplerate) (maxChannels cols.blockEcg)
          (maxChannels cols.blockPpg) st p.2)
        ((List.replicate (maxChannels cols.blockEcg) 0,
          List.replicate (maxChannels cols.blockEcg) 0), [])).2)
    hecg
  exact fun p hp => hppg p hp

/-- Collections holding one ECG block (channel 0, time 1000, sample 7) and
one PPG block (channel 0, time 1000, sample 9). -/
def c5cols : Collections :=
  { blockEcg := [(1000, ⟨0, 1000, [7]⟩)], blockPpg := [(1000, ⟨0, 1000, [9]⟩)] }

/-- The collections produced by reassembling `c5cols` at 1000 Hz. -/
def c5colsAfter : Collections :=
  { blockEcg := [], blockPpg := [],
    pulseRawList := [(1000, ⟨none, 0, 1, 1, [7], [-9]⟩)] }

theorem c5_convert_result : convertBlockMessages c5cols 1000 = .ok c5colsAfter := by
  unfold convertBlockMessages c5cols
  norm_num [maxChannels, ecgBlockStep, ppgBlockStep, ecgSampleStep, ppgSampleStep,
    blockLockStep, lookupMerged, setMerged, emptyPulseRawList, ratTrunc,
    List.getD, c5colsAfter]

theorem c5_block_reassembly_witness :
    c5colsAfter.blockEcg = [] ∧ c5colsAfter.blockPpg = [] ∧
    ((1000 : Int), (⟨none, 0, 1, 1, [7], [-9]⟩ : PulseRawListMsg)).2.ecgs.length =
      maxChannels c5cols.blockEcg ∧
    ((1000 : Int), (⟨none, 0, 1, 1, [7], [-9]⟩ : PulseRawListMsg)).2.ppgs.length =
      maxChannels c5cols.blockPpg :=
  have h := c5_block_reassembly c5cols 1000 c5colsAfter (by decide) (by decide)
    c5_convert_result
  have hrec := h.2.2 ((1000 : Int), (⟨none, 0, 1, 1, [7], [-9]⟩ : PulseRawListMsg))
    (by decide)
  ⟨h.1, h.2.1, hrec.2.2.1, hrec.2.2.2.1⟩
